import Mathlib

/-!
Verification of the spread-computation and alignment pipeline of
mortgage_spread_analysis.py.

Shallow embedding conventions:
* A single-column data frame is a list of rows (date, value); dates are
  encoded as integers.  For the weekly aligner the encoding is a day
  index with weekday d = d mod 7 and Wednesday = 3; for the plotting
  model the encoding is the ordinal form yyyymmdd (order preserving).
  Values are exact rationals (the model is NaN-free: a valid time
  series per the data model has one value per date).
* The external data source (FRED via pandas_datareader) is an oracle
  `Fetch` mapping a series id to either rows or an exception message.
  A fetcher catches the exception and returns `none` plus its printed
  messages (progress prints are abridged to the ones that matter for
  control flow; error and proxy prints are kept).
* HAS_DATAREADER is taken to be true (the branch the claims address);
  HAS_SKLEARN is an explicit boolean parameter of the regression model.
* sklearn linear regression is embedded by its closed-form ordinary
  least squares solution; the polynomial fits solve the normal
  equations of the Vandermonde design by explicit Cramer rule, defined
  exactly when the Gram determinant is nonzero (degenerate designs,
  which sklearn resolves by minimum-norm lstsq, are modelled as none).
  On an empty cleaned sample sklearn's fit raises an uncaught
  ValueError; the model records that exception (message abridged) in
  the raises field of the regression outcome, and main propagates it.
* main is modelled as a trace record: the analysis outputs it has
  produced when it ends, plus the uncaught exception, if any, that
  ended it early.  This keeps the sequential behaviour of the script:
  outputs written before a crash are still written.
-/

namespace MortgageSpread

/-- A row of a single-column frame: (date, value in percent). -/
abbrev Row := Int × ℚ

/-- A named single-column data frame, as produced by the download functions. -/
structure Frame where
  name : String
  data : List Row
deriving DecidableEq

/-- Week label used by resample W-WED: the first Wednesday on or after d,
with dates encoded so that weekday d = d mod 7 and Wednesday = 3.  A date
belongs to the weekly bucket whose right (closed) edge is this Wednesday. -/
def weekLabel (d : Int) : Int := d + (3 - d) % 7

/-- One step of the weekly aligner: prepend the bucket of observation
(d, v) to the already aligned tail; when the tail starts with the same
bucket label the later observation of the bucket wins (resample last). -/
def alignStep (d : Int) (v : ℚ) : List Row → List Row
  | [] => [(weekLabel d, v)]
  | (w, u) :: t =>
    if weekLabel d = w then (w, u) :: t else (weekLabel d, v) :: (w, u) :: t

/-- align_to_weekly_wednesday: resample the series to weekly buckets ending
on Wednesday, keep the last observation of each bucket, and drop empty
buckets (df.resample with W-WED, then last, then dropna). -/
def align_to_weekly_wednesday : List Row → List Row
  | [] => []
  | (d, v) :: rest => alignStep d v (align_to_weekly_wednesday rest)

/-- Index lookup: the value stored at date d, if any. -/
def lookupDate (d : Int) : List Row → Option ℚ
  | [] => none
  | (e, v) :: rest => if e = d then some v else lookupDate d rest

/-- Inner join of two single-column frames on the date index
(pd.merge with left_index, right_index, how inner). -/
def innerJoin (a b : List Row) : List (Int × ℚ × ℚ) :=
  a.filterMap fun p => (lookupDate p.1 b).map fun w => (p.1, p.2, w)

/-- calculate_spread: inner join on date, then a spread column equal to
(col1 - col2) * 100 (percentage points to basis points). -/
def calculate_spread (a b : List Row) : List (Int × ℚ × ℚ × ℚ) :=
  (innerJoin a b).map fun r => (r.1, r.2.1, r.2.2, (r.2.1 - r.2.2) * 100)

/-! Fetchers (SECTION 1 of the script). -/

/-- The external data source: maps a FRED series id to its rows, or to an
exception message when the download raises. -/
abbrev Fetch := String → Except String (List Row)

/-- download_pmms_data: fetch MORTGAGE30US, relabel the column to
PMMS_30Y; on an exception, catch it, print it and return None. -/
def download_pmms_data (fetch : Fetch) : Option Frame × List String :=
  match fetch "MORTGAGE30US" with
  | .ok rows => (some ⟨"PMMS_30Y", rows⟩, [])
  | .error e => (none, ["Error downloading PMMS data: " ++ e])

/-- download_treasury_10y_data: fetch DGS10, relabel to Treasury_10Y;
on an exception, catch it, print it and return None. -/
def download_treasury_10y_data (fetch : Fetch) : Option Frame × List String :=
  match fetch "DGS10" with
  | .ok rows => (some ⟨"Treasury_10Y", rows⟩, [])
  | .error e => (none, ["Error downloading Treasury data: " ++ e])

/-- The alternate FRED series tried for the current coupon, in order. -/
def cc30TryList : List String := ["OBMMIFHA30YF", "OBMMIC30YF"]

/-- The inner loop of download_fannie_mae_cc30_data: try each candidate
series, swallow its failure, return the first success relabelled CC30. -/
def tryCC30Series (fetch : Fetch) : List String → Option Frame × List String
  | [] => (none, [])
  | s :: rest =>
    match fetch s with
    | .ok rows =>
      (some ⟨"CC30", rows⟩,
        ["Downloaded Current Coupon records using series " ++ s])
    | .error _ => tryCC30Series fetch rest

/-- The printed note that the CC30 proxy is only an approximation. -/
def proxyMsg : String :=
  "Created CC30 proxy (PMMS - 50bps). Replace with actual Bloomberg data for accuracy."

/-- The printed note that no direct CC30 series was available. -/
def noDirectMsg : String :=
  "Direct CC30 data not available from FRED. Creating proxy from PMMS..."

/-- download_fannie_mae_cc30_data: try the alternate FRED series in order;
if all fail, re-download PMMS and build the proxy PMMS - 0.50, relabelled
CC30, with the approximation note; if PMMS is also unavailable, None. -/
def download_fannie_mae_cc30_data (fetch : Fetch) : Option Frame × List String :=
  match tryCC30Series fetch cc30TryList with
  | (some f, msgs) => (some f, msgs)
  | (none, _) =>
    match (download_pmms_data fetch).1 with
    | some pmms =>
      (some ⟨"CC30", pmms.data.map fun p => (p.1, p.2 - 1/2)⟩,
        [noDirectMsg, proxyMsg])
    | none => (none, [noDirectMsg])

/-! Regression model (SECTION 4 of the script). -/

/-- Sum of a list of rationals. -/
def qsum (l : List ℚ) : ℚ := l.foldr (· + ·) 0

/-- Drop the rows with a missing value in either column (df.dropna). -/
def dropna (df : List (Option ℚ × Option ℚ)) : List (ℚ × ℚ) :=
  df.filterMap fun r =>
    match r with
    | (some x, some y) => some (x, y)
    | _ => none

/-- Sum of the k-th powers of the x column. -/
def xpowSum (pts : List (ℚ × ℚ)) (k : Nat) : ℚ :=
  qsum (pts.map fun p => p.1 ^ k)

/-- Sum of x^k * y over the sample. -/
def xyPowSum (pts : List (ℚ × ℚ)) (k : Nat) : ℚ :=
  qsum (pts.map fun p => p.1 ^ k * p.2)

/-- Mean of the x column. -/
def meanX (pts : List (ℚ × ℚ)) : ℚ := qsum (pts.map Prod.fst) / pts.length

/-- Mean of the y column. -/
def meanY (pts : List (ℚ × ℚ)) : ℚ := qsum (pts.map Prod.snd) / pts.length

/-- Centered second moment of x. -/
def sxx (pts : List (ℚ × ℚ)) : ℚ :=
  qsum (pts.map fun p => (p.1 - meanX pts) ^ 2)

/-- Centered cross moment of x and y. -/
def sxy (pts : List (ℚ × ℚ)) : ℚ :=
  qsum (pts.map fun p => (p.1 - meanX pts) * (p.2 - meanY pts))

/-- Ordinary least squares slope of sklearn LinearRegression on one
feature: sxy / sxx, and 0 on a degenerate design (minimum-norm lstsq). -/
def linSlope (pts : List (ℚ × ℚ)) : ℚ :=
  if sxx pts = 0 then 0 else sxy pts / sxx pts

/-- Ordinary least squares intercept: meanY - slope * meanX. -/
def linIntercept (pts : List (ℚ × ℚ)) : ℚ :=
  meanY pts - linSlope pts * meanX pts

/-- Residual sum of squares of a predictor over the sample. -/
def ssRes (pred : ℚ → ℚ) (pts : List (ℚ × ℚ)) : ℚ :=
  qsum (pts.map fun p => (p.2 - pred p.1) ^ 2)

/-- Total sum of squares of the y column. -/
def ssTot (pts : List (ℚ × ℚ)) : ℚ :=
  qsum (pts.map fun p => (p.2 - meanY pts) ^ 2)

/-- sklearn r2_score: 1 - res / tot, with the sklearn convention for a
constant target (1 when the fit is exact, else 0). -/
def r2Score (res tot : ℚ) : ℚ :=
  if tot = 0 then (if res = 0 then 1 else 0) else 1 - res / tot

/-- Mean squared error: residual sum of squares over the sample size.
The reported RMSE is its square root. -/
def mseOf (res : ℚ) (len : Nat) : ℚ := res / len

/-- Explicit 3 by 3 determinant. -/
def det3 (a b c d e f g h i : ℚ) : ℚ :=
  a * (e * i - f * h) - b * (d * i - f * g) + c * (d * h - e * g)

/-- Explicit 4 by 4 determinant, expanded along the first row. -/
def det4 (a11 a12 a13 a14 a21 a22 a23 a24 a31 a32 a33 a34 a41 a42 a43 a44 : ℚ) : ℚ :=
  a11 * det3 a22 a23 a24 a32 a33 a34 a42 a43 a44
    - a12 * det3 a21 a23 a24 a31 a33 a34 a41 a43 a44
    + a13 * det3 a21 a22 a24 a31 a32 a34 a41 a42 a44
    - a14 * det3 a21 a22 a23 a31 a32 a33 a41 a42 a43

/-- Degree 2 least squares fit: solve the normal equations of the
design [1, x, x^2] by Cramer rule; none when the Gram matrix is
singular. -/
def polyFit2 (pts : List (ℚ × ℚ)) : Option (ℚ × ℚ × ℚ) :=
  let s0 : ℚ := pts.length
  let s1 := xpowSum pts 1
  let s2 := xpowSum pts 2
  let s3 := xpowSum pts 3
  let s4 := xpowSum pts 4
  let b0 := xyPowSum pts 0
  let b1 := xyPowSum pts 1
  let b2 := xyPowSum pts 2
  let dG := det3 s0 s1 s2 s1 s2 s3 s2 s3 s4
  if dG = 0 then none
  else
    some (det3 b0 s1 s2 b1 s2 s3 b2 s3 s4 / dG,
      det3 s0 b0 s2 s1 b1 s3 s2 b2 s4 / dG,
      det3 s0 s1 b0 s1 s2 b1 s2 s3 b2 / dG)

/-- Degree 3 least squares fit via the normal equations of
[1, x, x^2, x^3]; none when the Gram matrix is singular. -/
def polyFit3 (pts : List (ℚ × ℚ)) : Option (ℚ × ℚ × ℚ × ℚ) :=
  let s0 : ℚ := pts.length
  let s1 := xpowSum pts 1
  let s2 := xpowSum pts 2
  let s3 := xpowSum pts 3
  let s4 := xpowSum pts 4
  let s5 := xpowSum pts 5
  let s6 := xpowSum pts 6
  let b0 := xyPowSum pts 0
  let b1 := xyPowSum pts 1
  let b2 := xyPowSum pts 2
  let b3 := xyPowSum pts 3
  let dG := det4 s0 s1 s2 s3 s1 s2 s3 s4 s2 s3 s4 s5 s3 s4 s5 s6
  if dG = 0 then none
  else
    some (det4 b0 s1 s2 s3 b1 s2 s3 s4 b2 s3 s4 s5 b3 s4 s5 s6 / dG,
      det4 s0 b0 s2 s3 s1 b1 s3 s4 s2 b2 s4 s5 s3 b3 s5 s6 / dG,
      det4 s0 s1 b0 s3 s1 s2 b1 s4 s2 s3 b2 s5 s3 s4 b3 s6 / dG,
      det4 s0 s1 s2 b0 s1 s2 s3 b1 s2 s3 s4 b2 s3 s4 s5 b3 / dG)

/-- Reported figures of the degree 1 fit. -/
structure LinResult where
  intercept : ℚ
  coef : ℚ
  r2 : ℚ
  mse : ℚ
deriving DecidableEq

/-- Reported figures of a polynomial fit. -/
structure PolyResult where
  coeffs : List ℚ
  r2 : ℚ
  mse : ℚ
deriving DecidableEq

/-- The dictionary run_regression_analysis builds. -/
structure RegResults where
  linear : LinResult
  poly2 : Option PolyResult
  poly3 : Option PolyResult
deriving DecidableEq

/-- The observable outcome of run_regression_analysis: returned value,
printed messages, chart files written, and the uncaught exception that
ended it, if any. -/
structure RegRun where
  result : Option RegResults
  messages : List String
  files : List String
  raises : Option String
deriving DecidableEq

/-- Degree 1 fit report on the cleaned sample. -/
def linResult (pts : List (ℚ × ℚ)) : LinResult :=
  let c0 := linIntercept pts
  let c1 := linSlope pts
  let res := ssRes (fun x => c0 + c1 * x) pts
  ⟨c0, c1, r2Score res (ssTot pts), mseOf res pts.length⟩

/-- Degree 2 fit report on the cleaned sample. -/
def poly2Result (pts : List (ℚ × ℚ)) : Option PolyResult :=
  (polyFit2 pts).map fun c =>
    let res := ssRes (fun x => c.1 + c.2.1 * x + c.2.2 * x ^ 2) pts
    ⟨[c.1, c.2.1, c.2.2], r2Score res (ssTot pts), mseOf res pts.length⟩

/-- Degree 3 fit report on the cleaned sample. -/
def poly3Result (pts : List (ℚ × ℚ)) : Option PolyResult :=
  (polyFit3 pts).map fun c =>
    let res := ssRes
      (fun x => c.1 + c.2.1 * x + c.2.2.1 * x ^ 2 + c.2.2.2 * x ^ 3) pts
    ⟨[c.1, c.2.1, c.2.2.1, c.2.2.2], r2Score res (ssTot pts),
      mseOf res pts.length⟩

/-- The notice printed when scikit-learn is missing. -/
def sklearnMsg : String :=
  "scikit-learn not available. Please install it for regression analysis."

/-- The uncaught exception lr.fit raises on an empty sample (message
abridged from sklearn). -/
def valueErrorMsg : String :=
  "ValueError: Found array with 0 sample(s) while a minimum of 1 is required"

/-- run_regression_analysis: without sklearn, print the notice and return
None with no fit and no plot; otherwise dropna and, on an empty cleaned
sample, die in lr.fit with an uncaught ValueError before any fit or
plot; otherwise fit the three models and write the regression chart. -/
def run_regression_analysis (hasSklearn : Bool) (df : List (Option ℚ × Option ℚ)) : RegRun :=
  if hasSklearn then
    let pts := dropna df
    if pts.length = 0 then ⟨none, [], [], some valueErrorMsg⟩
    else
      ⟨some ⟨linResult pts, poly2Result pts, poly3Result pts⟩,
        ["LINEAR REGRESSION RESULTS", "POLYNOMIAL REGRESSION (DEGREE 2) RESULTS",
          "POLYNOMIAL REGRESSION (DEGREE 3) RESULTS"],
        ["regression_analysis.png"], none⟩
  else ⟨none, [sklearnMsg], [], none⟩

/-! Plotting model (SECTION 3 of the script).  Only the recession
shading of plot_spread_history is modelled; dates are encoded as the
order-preserving integers yyyymmdd. -/

/-- The hard-coded stress periods shaded by plot_spread_history. -/
def recessions : List (Int × Int) :=
  [(20010301, 20011101), (20071201, 20090601), (20200201, 20200401)]

/-- Smallest element of the index. -/
def idxMinD : List Int → Option Int
  | [] => none
  | d :: ds => some (ds.foldl min d)

/-- Largest element of the index. -/
def idxMaxD : List Int → Option Int
  | [] => none
  | d :: ds => some (ds.foldl max d)

/-- The recession bands plot_spread_history draws: a period (s, e) is
shaded, as the full unclipped span, exactly when s is at least the index
minimum and e is at most the index maximum. -/
def shadedBands (df : List Row) : List (Int × Int) :=
  match idxMinD (df.map Prod.fst), idxMaxD (df.map Prod.fst) with
  | some lo, some hi =>
    recessions.filter fun p => decide (lo ≤ p.1) && decide (p.2 ≤ hi)
  | _, _ => []

/-- Modelled from the spec (not from the source): the shading behaviour
the specification text asserts, namely that every stress period that
overlaps the date range of the series contributes a band clipped to
that range.  Stated as a boolean to be compared with shadedBands. -/
def specClaimedShading (df : List Row) : Bool :=
  match idxMinD (df.map Prod.fst), idxMaxD (df.map Prod.fst) with
  | some lo, some hi =>
    recessions.all fun p =>
      !(decide (p.1 ≤ hi) && decide (lo ≤ p.2)) ||
        decide ((max p.1 lo, min p.2 hi) ∈ shadedBands df)
  | _, _ => true

/-! Main control flow (MAIN EXECUTION section of the script). -/

/-- The uncaught unbound-local exception of the buggy Problem 5 guard. -/
def nameErrorMsg : String := "NameError: name pmms_weekly is not defined"

/-- The trace of a run of main: the Problem 4 spread frame, the
Problem 5 spread frame and the regression results it produced, plus the
uncaught exception, if any, that terminated the run - outputs produced
before a crash are kept, matching the sequential script. -/
structure MainOut where
  problem4 : Option (List (Int × ℚ × ℚ × ℚ))
  problem5 : Option (List (Int × ℚ × ℚ × ℚ))
  regression : Option RegResults
  uncaught : Option String
deriving DecidableEq

/-- main: download PMMS and Treasury; when both are present run the
Problem 4 block, which also binds pmms_weekly.  Then download CC30; when
PMMS and CC30 are present run the Problem 5 block, which reads the local
variable pmms_weekly - a name bound only if the Problem 4 block ran, so
that path dies with an uncaught unbound-local error before producing the
Problem 5 outputs.  The Problem 5 block then runs the regression, whose
own uncaught exception, if any, ends the run after the spread outputs
were already produced. -/
def mainModel (hasSklearn : Bool) (fetch : Fetch) : MainOut :=
  let pmms_data := (download_pmms_data fetch).1
  let treasury_data := (download_treasury_10y_data fetch).1
  let block4 : Option (List Row × List (Int × ℚ × ℚ × ℚ)) :=
    match pmms_data, treasury_data with
    | some p, some t =>
      let pmms_weekly := align_to_weekly_wednesday p.data
      let treasury_weekly := align_to_weekly_wednesday t.data
      some (pmms_weekly, calculate_spread pmms_weekly treasury_weekly)
    | _, _ => none
  let cc30_data := (download_fannie_mae_cc30_data fetch).1
  match pmms_data, cc30_data with
  | some _, some c =>
    let cc30_weekly := align_to_weekly_wednesday c.data
    match block4 with
    | some (pmms_weekly, spread4) =>
      let pss30 := calculate_spread pmms_weekly cc30_weekly
      let reg := run_regression_analysis hasSklearn
        (pss30.map fun r => (some r.2.2.1, some r.2.2.2))
      ⟨some spread4, some pss30, reg.result, reg.raises⟩
    | none => ⟨none, none, none, some nameErrorMsg⟩
  | _, _ => ⟨block4.map Prod.snd, none, none, none⟩

/-- The outputs of main that do not come from the regression step. -/
def nonRegressionOut (o : MainOut) :
    Option (List (Int × ℚ × ℚ × ℚ)) × Option (List (Int × ℚ × ℚ × ℚ)) :=
  (o.problem4, o.problem5)

/-! Lemmas about the week label. -/

theorem weekLabel_mod (d : Int) : weekLabel d % 7 = 3 := by
  unfold weekLabel; omega

theorem le_weekLabel (d : Int) : d ≤ weekLabel d := by
  unfold weekLabel; omega

theorem weekLabel_mono {d e : Int} (h : d ≤ e) : weekLabel d ≤ weekLabel e := by
  unfold weekLabel; omega

theorem weekLabel_eq_self {d : Int} (h : d % 7 = 3) : weekLabel d = d := by
  unfold weekLabel; omega

/-! Lemmas about the weekly aligner. -/

theorem alignStep_ne_nil (d : Int) (v : ℚ) (l : List Row) :
    alignStep d v l ≠ [] := by
  cases l with
  | nil => simp [alignStep]
  | cons b t =>
    obtain ⟨w, u⟩ := b
    rw [alignStep]
    by_cases hd : weekLabel d = w
    · rw [if_pos hd]; simp
    · rw [if_neg hd]; simp

theorem align_eq_nil {l : List Row} :
    align_to_weekly_wednesday l = [] ↔ l = [] := by
  constructor
  · intro h
    cases l with
    | nil => rfl
    | cons a rest =>
      obtain ⟨d, v⟩ := a
      rw [align_to_weekly_wednesday] at h
      exact absurd h (alignStep_ne_nil _ _ _)
  · intro h; subst h; rfl

theorem align_head (d : Int) (v : ℚ) (l : List Row) :
    ∃ u t, align_to_weekly_wednesday ((d, v) :: l) = (weekLabel d, u) :: t := by
  rw [align_to_weekly_wednesday]
  cases align_to_weekly_wednesday l with
  | nil => exact ⟨v, [], rfl⟩
  | cons b t =>
    obtain ⟨w, u⟩ := b
    rw [alignStep]
    by_cases hd : weekLabel d = w
    · rw [if_pos hd]; exact ⟨u, t, by rw [hd]⟩
    · rw [if_neg hd]; exact ⟨v, (w, u) :: t, rfl⟩

theorem alignStep_sources {d : Int} {v : ℚ} {l : List Row} {p : Row}
    (hp : p ∈ alignStep d v l) : p = (weekLabel d, v) ∨ p ∈ l := by
  cases l with
  | nil => rw [alignStep] at hp; simp at hp; exact Or.inl hp
  | cons b t =>
    obtain ⟨w, u⟩ := b
    rw [alignStep] at hp
    by_cases hd : weekLabel d = w
    · rw [if_pos hd] at hp; exact Or.inr hp
    · rw [if_neg hd] at hp
      rcases List.mem_cons.mp hp with h | h
      · exact Or.inl h
      · exact Or.inr h

theorem align_sources {l : List Row} {p : Row}
    (hp : p ∈ align_to_weekly_wednesday l) :
    ∃ q ∈ l, p.1 = weekLabel q.1 ∧ p.2 = q.2 := by
  induction l with
  | nil => simp [align_to_weekly_wednesday] at hp
  | cons a rest ih =>
    obtain ⟨d, v⟩ := a
    rw [align_to_weekly_wednesday] at hp
    rcases alignStep_sources hp with h | h
    · exact ⟨(d, v), List.mem_cons_self _ _, by rw [h], by rw [h]⟩
    · obtain ⟨q, hq, h1, h2⟩ := ih h
      exact ⟨q, List.mem_cons_of_mem _ hq, h1, h2⟩

theorem align_pairwise {l : List Row}
    (hp : (l.map Prod.fst).Pairwise (· < ·)) :
    ((align_to_weekly_wednesday l).map Prod.fst).Pairwise (· < ·) := by
  induction l with
  | nil => simp [align_to_weekly_wednesday]
  | cons a rest ih =>
    obtain ⟨d, v⟩ := a
    rw [List.map_cons, List.pairwise_cons] at hp
    obtain ⟨hd_lt, hrest⟩ := hp
    have ihr := ih hrest
    rw [align_to_weekly_wednesday]
    cases hA : align_to_weekly_wednesday rest with
    | nil => simp [alignStep]
    | cons b t =>
      obtain ⟨w, u⟩ := b
      have hrest_ne : rest ≠ [] := by
        intro h; rw [h] at hA; simp [align_to_weekly_wednesday] at hA
      obtain ⟨d1, v1, rest', hrest_eq⟩ :
          ∃ d1 v1 rest', rest = (d1, v1) :: rest' := by
        cases rest with
        | nil => exact absurd rfl hrest_ne
        | cons q rest' => exact ⟨q.1, q.2, rest', by rw [Prod.mk.eta]⟩
      have hw : w = weekLabel d1 := by
        obtain ⟨u', t', h⟩ := align_head d1 v1 rest'
        rw [hrest_eq, h] at hA
        exact (Prod.mk.injEq _ _ _ _ ▸ (List.cons.injEq _ _ _ _ ▸ hA).1).1.symm
      have hdd1 : d < d1 := by
        apply hd_lt; rw [hrest_eq]; simp
      have hwd : weekLabel d ≤ w := hw ▸ weekLabel_mono hdd1.le
      rw [alignStep]
      by_cases hd : weekLabel d = w
      · rw [if_pos hd]; rw [hA] at ihr; exact ihr
      · rw [if_neg hd]
        rw [List.map_cons, List.pairwise_cons]
        rw [hA] at ihr
        constructor
        · intro y hy
          rw [List.map_cons] at hy
          rcases List.mem_cons.mp hy with h | h
          · rw [h]; exact lt_of_le_of_ne hwd hd
          · rw [List.map_cons, List.pairwise_cons] at ihr
            exact lt_trans (lt_of_le_of_ne hwd hd) (ihr.1 y h)
        · exact ihr

theorem align_last_obs {l : List Row}
    (hp : (l.map Prod.fst).Pairwise (· < ·)) {p : Row}
    (hmem : p ∈ align_to_weekly_wednesday l) :
    ∃ d0, (d0, p.2) ∈ l ∧ weekLabel d0 = p.1 ∧
      ∀ q ∈ l, weekLabel q.1 = p.1 → q.1 ≤ d0 := by
  induction l with
  | nil => simp [align_to_weekly_wednesday] at hmem
  | cons a rest ih =>
    obtain ⟨d, v⟩ := a
    rw [List.map_cons, List.pairwise_cons] at hp
    obtain ⟨hd_lt, hrest⟩ := hp
    rw [align_to_weekly_wednesday] at hmem
    cases hA : align_to_weekly_wednesday rest with
    | nil =>
      have hrest_nil : rest = [] := align_eq_nil.mp hA
      rw [hA, alignStep] at hmem
      simp only [List.mem_singleton] at hmem
      refine ⟨d, ?_, ?_, ?_⟩
      · rw [hmem]; exact List.mem_cons_self _ _
      · rw [hmem]
      · intro q hq _
        rw [hrest_nil] at hq
        simp only [List.mem_singleton] at hq
        rw [hq]
    | cons b t =>
      obtain ⟨w, u⟩ := b
      have hrest_ne : rest ≠ [] := by
        intro h; rw [h] at hA; simp [align_to_weekly_wednesday] at hA
      obtain ⟨d1, v1, rest', hrest_eq⟩ :
          ∃ d1 v1 rest', rest = (d1, v1) :: rest' := by
        cases rest with
        | nil => exact absurd rfl hrest_ne
        | cons q rest' => exact ⟨q.1, q.2, rest', by rw [Prod.mk.eta]⟩
      have hw : w = weekLabel d1 := by
        obtain ⟨u', t', h⟩ := align_head d1 v1 rest'
        rw [hrest_eq, h] at hA
        exact (Prod.mk.injEq _ _ _ _ ▸ (List.cons.injEq _ _ _ _ ▸ hA).1).1.symm
      have hdd1 : d < d1 := by
        apply hd_lt; rw [hrest_eq]; simp
      have hwd : weekLabel d ≤ w := hw ▸ weekLabel_mono hdd1.le
      have hrest_ge : ∀ q ∈ rest, d1 ≤ q.1 := by
        intro q hq
        rw [hrest_eq] at hq
        rcases List.mem_cons.mp hq with h | h
        · rw [h]
        · rw [hrest_eq] at hrest
          rw [List.map_cons, List.pairwise_cons] at hrest
          exact (hrest.1 q.1 (List.mem_map_of_mem Prod.fst h)).le
      rw [hA, alignStep] at hmem
      by_cases hd : weekLabel d = w
      · rw [if_pos hd] at hmem
        obtain ⟨d0, h1, h2, h3⟩ := ih hrest (hA ▸ hmem)
        refine ⟨d0, List.mem_cons_of_mem _ h1, h2, ?_⟩
        intro q hq hql
        rcases List.mem_cons.mp hq with h | h
        · have hd0 : d < d0 := by
            have : d0 ∈ rest.map Prod.fst := List.mem_map_of_mem Prod.fst h1
            exact hd_lt d0 this
          rw [h]; exact hd0.le
        · exact h3 q h hql
      · rw [if_neg hd] at hmem
        have hlt : weekLabel d < w := lt_of_le_of_ne hwd hd
        rcases List.mem_cons.mp hmem with hph | hpt
        · refine ⟨d, ?_, ?_, ?_⟩
          · rw [hph]; exact List.mem_cons_self _ _
          · rw [hph]
          · intro q hq hql
            rcases List.mem_cons.mp hq with h | h
            · rw [h]
            · exfalso
              have hq1 : d1 ≤ q.1 := hrest_ge q h
              have : w ≤ weekLabel q.1 := hw ▸ weekLabel_mono hq1
              rw [hql, hph] at this
              exact absurd (lt_of_lt_of_le hlt this) (lt_irrefl _)
        · obtain ⟨d0, h1, h2, h3⟩ := ih hrest (hA ▸ hpt)
          refine ⟨d0, List.mem_cons_of_mem _ h1, h2, ?_⟩
          intro q hq hql
          rcases List.mem_cons.mp hq with h | h
          · exfalso
            have hpw : w ≤ p.1 := by
              have ihr := align_pairwise hrest
              rw [hA, List.map_cons, List.pairwise_cons] at ihr
              rcases List.mem_cons.mp hpt with hh | hh
              · rw [hh]
              · exact (ihr.1 p.1 (List.mem_map_of_mem Prod.fst hh)).le
            rw [h] at hql
            rw [hql] at hlt
            exact absurd (lt_of_lt_of_le hlt hpw) (lt_irrefl _)
          · exact h3 q h hql

/-! Lemmas about the date lookup and the inner join. -/

theorem lookupDate_mem {d : Int} {v : ℚ} {l : List Row}
    (h : lookupDate d l = some v) : (d, v) ∈ l := by
  induction l with
  | nil => simp [lookupDate] at h
  | cons a rest ih =>
    obtain ⟨e, u⟩ := a
    rw [lookupDate] at h
    by_cases he : e = d
    · rw [if_pos he] at h
      subst he
      rw [Option.some.injEq] at h
      rw [h]
      exact List.mem_cons_self _ _
    · rw [if_neg he] at h
      exact List.mem_cons_of_mem _ (ih h)

theorem mem_innerJoin_of {a b : List Row} {d : Int} {v w : ℚ}
    (ha : (d, v) ∈ a) (hb : lookupDate d b = some w) :
    (d, v, w) ∈ innerJoin a b := by
  rw [innerJoin, List.mem_filterMap]
  exact ⟨(d, v), ha, by rw [hb]; rfl⟩

theorem innerJoin_mem {a b : List Row} {r : Int × ℚ × ℚ}
    (h : r ∈ innerJoin a b) :
    (r.1, r.2.1) ∈ a ∧ lookupDate r.1 b = some r.2.2 := by
  rw [innerJoin, List.mem_filterMap] at h
  obtain ⟨p, hp, hmap⟩ := h
  cases hw : lookupDate p.1 b with
  | none => rw [hw] at hmap; simp at hmap
  | some w =>
    rw [hw] at hmap
    rw [Option.map_some', Option.some.injEq] at hmap
    rw [← hmap]
    exact ⟨by rw [Prod.mk.eta]; exact hp, hw⟩

/-- The dates of the inner join form a sublist of the dates of the left
input; with distinct left dates the join therefore has distinct dates. -/
theorem innerJoin_dates_sublist (a b : List Row) :
    ((innerJoin a b).map Prod.fst).Sublist (a.map Prod.fst) := by
  induction a with
  | nil => simp [innerJoin]
  | cons p rest ih =>
    rw [innerJoin, List.filterMap_cons]
    cases hw : lookupDate p.1 b with
    | none =>
      rw [List.map_cons]
      exact List.Sublist.cons _ ih
    | some w =>
      rw [Option.map_some', List.map_cons, List.map_cons]
      exact List.Sublist.cons₂ _ ih

theorem calculate_spread_of_mem {a b : List Row} {d : Int} {v w : ℚ}
    (hva : lookupDate d a = some v) (hwb : lookupDate d b = some w) :
    (d, v, w, (v - w) * 100) ∈ calculate_spread a b := by
  rw [calculate_spread, List.mem_map]
  exact ⟨(d, v, w), mem_innerJoin_of (lookupDate_mem hva) hwb, rfl⟩

theorem calculate_spread_mem {a b : List Row} {r : Int × ℚ × ℚ × ℚ}
    (h : r ∈ calculate_spread a b) :
    r.2.2.2 = (r.2.1 - r.2.2.1) * 100 ∧ (r.1, r.2.1) ∈ a ∧ (r.1, r.2.2.1) ∈ b := by
  rw [calculate_spread, List.mem_map] at h
  obtain ⟨j, hj, hmap⟩ := h
  obtain ⟨hja, hjb⟩ := innerJoin_mem hj
  rw [← hmap]
  exact ⟨rfl, hja, lookupDate_mem hjb⟩

theorem calculate_spread_dates_sublist (a b : List Row) :
    ((calculate_spread a b).map Prod.fst).Sublist (a.map Prod.fst) := by
  have h : (calculate_spread a b).map Prod.fst = (innerJoin a b).map Prod.fst := by
    rw [calculate_spread, List.map_map]; rfl
  rw [h]
  exact innerJoin_dates_sublist a b

/-! Claim theorems. -/

/-- Claim C1: for every pair of input series and every date t present in
both inputs, the spread computed by calculate_spread equals
(seriesA[t] - seriesB[t]) * 100 exactly, and no date appears in the
output that is absent from either input. -/
theorem claim_C1_spread_values (a b : List Row) :
    (∀ d v w, lookupDate d a = some v → lookupDate d b = some w →
      (d, v, w, (v - w) * 100) ∈ calculate_spread a b) ∧
    (∀ r ∈ calculate_spread a b,
      r.2.2.2 = (r.2.1 - r.2.2.1) * 100 ∧ (r.1, r.2.1) ∈ a ∧ (r.1, r.2.2.1) ∈ b) :=
  ⟨fun _ _ _ hva hwb => calculate_spread_of_mem hva hwb,
    fun _ hr => calculate_spread_mem hr⟩

/-- Witness for C1 at a concrete shared date: both inputs hold date 1
and the output contains the spread (5 - 3) * 100 = 200 there. -/
theorem claim_C1_witness :
    lookupDate 1 [((1 : Int), (5 : ℚ))] = some 5 ∧
    lookupDate 1 [((1 : Int), (3 : ℚ))] = some 3 ∧
    ((1 : Int), (5 : ℚ), (3 : ℚ), (200 : ℚ)) ∈
      calculate_spread [(1, 5)] [(1, 3)] := by
  refine ⟨rfl, rfl, ?_⟩
  have h := (claim_C1_spread_values [(1, 5)] [(1, 3)]).1 1 5 3 rfl rfl
  norm_num at h ⊢
  exact h

/-- Claim C2: for every pair of (valid, strictly increasing) input
series, calculate_spread is the inner join on date: its length is at
most min of the input lengths, and every output date occurs in both
inputs (dates present in only one input are dropped, never padded). -/
theorem claim_C2_inner_join (a b : List Row)
    (ha : (a.map Prod.fst).Pairwise (· < ·)) :
    (calculate_spread a b).length ≤ min a.length b.length ∧
    ∀ r ∈ calculate_spread a b,
      r.1 ∈ a.map Prod.fst ∧ r.1 ∈ b.map Prod.fst := by
  constructor
  · have hsub := calculate_spread_dates_sublist a b
    have hla : (calculate_spread a b).length ≤ a.length := by
      have := hsub.length_le
      rw [List.length_map, List.length_map] at this
      exact this
    have hnd : ((calculate_spread a b).map Prod.fst).Nodup :=
      hsub.nodup (ha.imp fun h => ne_of_lt h)
    have hss : (calculate_spread a b).map Prod.fst ⊆ b.map Prod.fst := by
      intro x hx
      rw [List.mem_map] at hx
      obtain ⟨r, hr, hrx⟩ := hx
      obtain ⟨_, _, hrb⟩ := calculate_spread_mem hr
      rw [← hrx]
      exact List.mem_map_of_mem Prod.fst hrb
    have hlb : (calculate_spread a b).length ≤ b.length := by
      have := (hnd.subperm hss).length_le
      rw [List.length_map, List.length_map] at this
      exact this
    exact le_min hla hlb
  · intro r hr
    obtain ⟨_, hra, hrb⟩ := calculate_spread_mem hr
    exact ⟨List.mem_map_of_mem Prod.fst hra, List.mem_map_of_mem Prod.fst hrb⟩

/-- Witness for C2: a three row and a two row series sharing one date
satisfy the length bound and the date subset property. -/
theorem claim_C2_witness :
    (([((1 : Int), (5 : ℚ)), (2, 6), (4, 7)].map Prod.fst).Pairwise (· < ·)) ∧
    ((calculate_spread [((1 : Int), (5 : ℚ)), (2, 6), (4, 7)]
        [((2 : Int), (3 : ℚ)), (9, 4)]).length ≤
      min ([((1 : Int), (5 : ℚ)), (2, 6), (4, 7)].length)
        ([((2 : Int), (3 : ℚ)), (9, 4)].length) ∧
      ∀ r ∈ calculate_spread [((1 : Int), (5 : ℚ)), (2, 6), (4, 7)]
          [((2 : Int), (3 : ℚ)), (9, 4)],
        r.1 ∈ [((1 : Int), (5 : ℚ)), (2, 6), (4, 7)].map Prod.fst ∧
        r.1 ∈ [((2 : Int), (3 : ℚ)), (9, 4)].map Prod.fst) :=
  ⟨by decide, claim_C2_inner_join _ _ (by decide)⟩

/-- Claim C3: for every valid (strictly increasing) input series, the
output of align_to_weekly_wednesday has all dates on a Wednesday
(day mod 7 = 3), strictly increasing - hence at most one row per
calendar week, since each week holds one Wednesday; each output value
equals the most recent observation on or before that Wednesday within
its week bucket (the observation exists, lies in the bucket of the
output date, is no later than it, and is the latest such); a week with
no observation yields no output row, since every output row carries a
witnessing observation of its bucket. -/
theorem claim_C3_weekly_alignment (df : List Row)
    (h : (df.map Prod.fst).Pairwise (· < ·)) :
    (∀ p ∈ align_to_weekly_wednesday df, p.1 % 7 = 3) ∧
    ((align_to_weekly_wednesday df).map Prod.fst).Pairwise (· < ·) ∧
    (∀ p ∈ align_to_weekly_wednesday df,
      ∃ d0, (d0, p.2) ∈ df ∧ weekLabel d0 = p.1 ∧ d0 ≤ p.1 ∧
        ∀ q ∈ df, weekLabel q.1 = p.1 → q.1 ≤ d0) := by
  refine ⟨?_, align_pairwise h, ?_⟩
  · intro p hp
    obtain ⟨q, _, h1, _⟩ := align_sources hp
    rw [h1]
    exact weekLabel_mod _
  · intro p hp
    obtain ⟨d0, h1, h2, h3⟩ := align_last_obs h hp
    exact ⟨d0, h1, h2, h2 ▸ le_weekLabel d0, h3⟩

/-- Witness for C3 on a three observation series spanning two weeks:
days 0 and 2 fall in the bucket of Wednesday 3, day 9 in the bucket of
Wednesday 10. -/
theorem claim_C3_witness :
    (([((0 : Int), (10 : ℚ)), (2, 20), (9, 30)].map Prod.fst).Pairwise (· < ·)) ∧
    ((∀ p ∈ align_to_weekly_wednesday [((0 : Int), (10 : ℚ)), (2, 20), (9, 30)],
        p.1 % 7 = 3) ∧
      ((align_to_weekly_wednesday
          [((0 : Int), (10 : ℚ)), (2, 20), (9, 30)]).map Prod.fst).Pairwise (· < ·) ∧
      (∀ p ∈ align_to_weekly_wednesday [((0 : Int), (10 : ℚ)), (2, 20), (9, 30)],
        ∃ d0, (d0, p.2) ∈ [((0 : Int), (10 : ℚ)), (2, 20), (9, 30)] ∧
          weekLabel d0 = p.1 ∧ d0 ≤ p.1 ∧
          ∀ q ∈ [((0 : Int), (10 : ℚ)), (2, 20), (9, 30)],
            weekLabel q.1 = p.1 → q.1 ≤ d0)) :=
  ⟨by decide, claim_C3_weekly_alignment _ (by decide)⟩

/-- Claim C4: when both alternate CC30 fetches fail and the PMMS fetch
succeeds, the returned proxy frame is named CC30, has the same dates as
the PMMS series, holds PMMS minus 0.50 at every date, and the printed
output carries the note that the proxy is an approximation. -/
theorem claim_C4_proxy_fallback (fetch : Fetch) (e1 e2 : String) (rows : List Row)
    (h1 : fetch "OBMMIFHA30YF" = .error e1) (h2 : fetch "OBMMIC30YF" = .error e2)
    (h3 : fetch "MORTGAGE30US" = .ok rows) :
    (download_fannie_mae_cc30_data fetch).1 =
      some ⟨"CC30", rows.map fun p => (p.1, p.2 - 1/2)⟩ ∧
    (rows.map fun p => (p.1, p.2 - 1/2)).map Prod.fst = rows.map Prod.fst ∧
    (∀ d v, (d, v) ∈ rows → (d, v - 1/2) ∈ (rows.map fun p => (p.1, p.2 - 1/2))) ∧
    proxyMsg ∈ (download_fannie_mae_cc30_data fetch).2 := by
  have hres : download_fannie_mae_cc30_data fetch =
      (some ⟨"CC30", rows.map fun p => (p.1, p.2 - 1/2)⟩, [noDirectMsg, proxyMsg]) := by
    simp [download_fannie_mae_cc30_data, cc30TryList, tryCC30Series, h1, h2,
      download_pmms_data, h3]
  refine ⟨by rw [hres], ?_, ?_, by rw [hres]; simp⟩
  · rw [List.map_map]; rfl
  · intro d v hv
    exact List.mem_map_of_mem (fun p => (p.1, p.2 - 1/2)) hv

/-- A fetch oracle on which only the PMMS series is available. -/
def fetchOnlyPMMS : Fetch :=
  fun s => if s = "MORTGAGE30US" then .ok [(0, 5)] else .error "HTTP 404"

/-- Witness for C4: with only PMMS available the proxy frame is CC30
with value 4.5 at date 0 and the approximation note is printed. -/
theorem claim_C4_witness :
    fetchOnlyPMMS "OBMMIFHA30YF" = .error "HTTP 404" ∧
    fetchOnlyPMMS "OBMMIC30YF" = .error "HTTP 404" ∧
    fetchOnlyPMMS "MORTGAGE30US" = .ok [(0, 5)] ∧
    ((download_fannie_mae_cc30_data fetchOnlyPMMS).1 =
      some ⟨"CC30", [((0 : Int), (5 : ℚ))].map fun p => (p.1, p.2 - 1/2)⟩ ∧
    ([((0 : Int), (5 : ℚ))].map fun p => (p.1, p.2 - 1/2)).map Prod.fst =
      [((0 : Int), (5 : ℚ))].map Prod.fst ∧
    (∀ d v, (d, v) ∈ [((0 : Int), (5 : ℚ))] →
      (d, v - 1/2) ∈ ([((0 : Int), (5 : ℚ))].map fun p => (p.1, p.2 - 1/2))) ∧
    proxyMsg ∈ (download_fannie_mae_cc30_data fetchOnlyPMMS).2) :=
  ⟨rfl, rfl, rfl, claim_C4_proxy_fallback fetchOnlyPMMS "HTTP 404" "HTTP 404" _ rfl rfl rfl⟩

/-- Claim C10: download_fannie_mae_cc30_data tries OBMMIFHA30YF first,
then OBMMIC30YF, returns the first success relabelled CC30, and builds
the proxy (signalled by its printed note) only when both fail. -/
theorem claim_C10_series_order (fetch : Fetch) :
    (∀ rows, fetch "OBMMIFHA30YF" = .ok rows →
      (download_fannie_mae_cc30_data fetch).1 = some ⟨"CC30", rows⟩) ∧
    (∀ e rows, fetch "OBMMIFHA30YF" = .error e → fetch "OBMMIC30YF" = .ok rows →
      (download_fannie_mae_cc30_data fetch).1 = some ⟨"CC30", rows⟩) ∧
    (proxyMsg ∈ (download_fannie_mae_cc30_data fetch).2 →
      (∃ e, fetch "OBMMIFHA30YF" = .error e) ∧
        ∃ e, fetch "OBMMIC30YF" = .error e) := by
  refine ⟨?_, ?_, ?_⟩
  · intro rows h
    simp [download_fannie_mae_cc30_data, cc30TryList, tryCC30Series, h]
  · intro e rows h1 h2
    simp [download_fannie_mae_cc30_data, cc30TryList, tryCC30Series, h1, h2]
  · intro hmem
    cases h1 : fetch "OBMMIFHA30YF" with
    | ok rows =>
      exfalso
      simp [download_fannie_mae_cc30_data, cc30TryList, tryCC30Series, h1] at hmem
      exact absurd hmem (by decide)
    | error e1 =>
      cases h2 : fetch "OBMMIC30YF" with
      | ok rows =>
        exfalso
        simp [download_fannie_mae_cc30_data, cc30TryList, tryCC30Series, h1, h2] at hmem
        exact absurd hmem (by decide)
      | error e2 => exact ⟨⟨e1, rfl⟩, ⟨e2, rfl⟩⟩

/-- A fetch oracle on which the first alternate CC30 series succeeds. -/
def fetchFirstAlt : Fetch :=
  fun s => if s = "OBMMIFHA30YF" then .ok [(0, 3)] else .error "HTTP 404"

/-- Witness for C10: the first alternate series is taken, relabelled
CC30. -/
theorem claim_C10_witness :
    fetchFirstAlt "OBMMIFHA30YF" = .ok [(0, 3)] ∧
    (download_fannie_mae_cc30_data fetchFirstAlt).1 =
      some ⟨"CC30", [(0, 3)]⟩ :=
  ⟨rfl, (claim_C10_series_order fetchFirstAlt).1 [(0, 3)] rfl⟩

/-- A fetch oracle on which exactly the Treasury series DGS10 fails. -/
def fetchTreasuryDown : Fetch :=
  fun s => if s = "DGS10" then .error "ConnectionError" else .ok [(0, 5)]

/-- Claim C5 is violated by the code: the Treasury fetch failure is
indeed caught inside the fetcher, printed, and turned into None, and the
Problem 4 block is skipped, but the Problem 5 block then runs (PMMS and
CC30 both succeeded) and reads pmms_weekly, a local bound only by the
skipped Problem 4 block, so the run ends in an uncaught unbound-local
error caused by the fetch failure, with no analysis output produced. -/
theorem claim_C5_fetch_failure_bug :
    (download_treasury_10y_data fetchTreasuryDown).1 = none ∧
    (download_treasury_10y_data fetchTreasuryDown).2 =
      ["Error downloading Treasury data: ConnectionError"] ∧
    mainModel true fetchTreasuryDown = ⟨none, none, none, some nameErrorMsg⟩ :=
  ⟨rfl, rfl, rfl⟩

/-- Claim C6: the pipeline is deterministic - equal inputs give equal
aligned series, equal spread series and equal regression results. -/
theorem claim_C6_deterministic (p t p' t' : List Row)
    (df df' : List (Option ℚ × Option ℚ))
    (hp : p = p') (ht : t = t') (hdf : df = df') :
    align_to_weekly_wednesday p = align_to_weekly_wednesday p' ∧
    calculate_spread (align_to_weekly_wednesday p) (align_to_weekly_wednesday t) =
      calculate_spread (align_to_weekly_wednesday p') (align_to_weekly_wednesday t') ∧
    run_regression_analysis true df = run_regression_analysis true df' := by
  subst hp
  subst ht
  subst hdf
  exact ⟨rfl, rfl, rfl⟩

/-- Witness for C6 at concrete inputs run twice. -/
theorem claim_C6_witness :
    ([((0 : Int), (5 : ℚ)), (9, 6)] = [((0 : Int), (5 : ℚ)), (9, 6)]) ∧
    ([((0 : Int), (3 : ℚ)), (9, 4)] = [((0 : Int), (3 : ℚ)), (9, 4)]) ∧
    ([((some (1 : ℚ)), some (2 : ℚ))] = [((some (1 : ℚ)), some (2 : ℚ))]) ∧
    (align_to_weekly_wednesday [((0 : Int), (5 : ℚ)), (9, 6)] =
      align_to_weekly_wednesday [((0 : Int), (5 : ℚ)), (9, 6)] ∧
    calculate_spread (align_to_weekly_wednesday [((0 : Int), (5 : ℚ)), (9, 6)])
        (align_to_weekly_wednesday [((0 : Int), (3 : ℚ)), (9, 4)]) =
      calculate_spread (align_to_weekly_wednesday [((0 : Int), (5 : ℚ)), (9, 6)])
        (align_to_weekly_wednesday [((0 : Int), (3 : ℚ)), (9, 4)]) ∧
    run_regression_analysis true [((some (1 : ℚ)), some (2 : ℚ))] =
      run_regression_analysis true [((some (1 : ℚ)), some (2 : ℚ))]) :=
  ⟨rfl, rfl, rfl, claim_C6_deterministic _ _ _ _ _ _ rfl rfl rfl⟩

/-- Claim C9: without scikit-learn, run_regression_analysis prints the
notice and returns None without raising, with no fit and no chart file;
and the rest of main is unaffected: its non regression outputs are
identical with and without the library (the script writes them before
the regression step), no regression result is ever produced, and the
only uncaught exception a sklearn-free run can end with is the
regression-independent unbound-local error of the Problem 5 guard. -/
theorem claim_C9_no_sklearn (df : List (Option ℚ × Option ℚ)) (fetch : Fetch) :
    run_regression_analysis false df = ⟨none, [sklearnMsg], [], none⟩ ∧
    nonRegressionOut (mainModel false fetch) =
      nonRegressionOut (mainModel true fetch) ∧
    (mainModel false fetch).regression = none ∧
    ((mainModel false fetch).uncaught = none ∨
      (mainModel false fetch).uncaught = some nameErrorMsg) := by
  refine ⟨rfl, ?_⟩
  rcases h1 : (download_pmms_data fetch).1 with _ | p <;>
    rcases h2 : (download_treasury_10y_data fetch).1 with _ | t <;>
      rcases h3 : (download_fannie_mae_cc30_data fetch).1 with _ | c <;>
        simp [mainModel, h1, h2, h3, nonRegressionOut, run_regression_analysis]

/-- A fetch oracle on which every download succeeds but the PMMS series
(day 0, bucket Wednesday 3) and the CC30 series (day 14, bucket
Wednesday 17) share no week, so the joined regression sample is empty. -/
def fetchWeekDisjoint : Fetch := fun s =>
  if s = "MORTGAGE30US" then .ok [(0, 5)]
  else if s = "DGS10" then .ok [(0, 4)]
  else if s = "OBMMIFHA30YF" then .ok [(14, 3)]
  else .error "HTTP 404"

/-- The empty-sample crash of lr.fit is reachable: on week-disjoint
PMMS and CC30 data every fetch succeeds, the spread outputs are
produced, and the sklearn run then dies in lr.fit with the uncaught
ValueError, while the sklearn-free run ends cleanly with the very same
non regression outputs. -/
theorem mainModel_empty_sample_valueError :
    mainModel true fetchWeekDisjoint =
      ⟨some [(3, 5, 4, 100)], some [], none, some valueErrorMsg⟩ ∧
    mainModel false fetchWeekDisjoint =
      ⟨some [(3, 5, 4, 100)], some [], none, none⟩ := by
  have halign5 : align_to_weekly_wednesday [(0, 5)] = [(3, 5)] := rfl
  have halign4 : align_to_weekly_wednesday [(0, 4)] = [(3, 4)] := rfl
  have halign3 : align_to_weekly_wednesday [(14, 3)] = [(17, 3)] := rfl
  have hempty : calculate_spread [(3, 5)] [(17, 3)] = [] := rfl
  have hspread : calculate_spread [(3, 5)] [(3, 4)] = [(3, 5, 4, 100)] := by
    norm_num [calculate_spread, innerJoin, lookupDate, List.filterMap_cons,
      List.filterMap_nil]
  constructor <;>
    simp [mainModel, fetchWeekDisjoint, download_pmms_data,
      download_treasury_10y_data, download_fannie_mae_cc30_data,
      tryCC30Series, cc30TryList, halign5, halign4, halign3, hempty,
      hspread, run_regression_analysis, dropna]

/-- The concrete regression input of the testable property y = 2x + 1,
with one missing-value row that dropna must discard. -/
def dfLinear : List (Option ℚ × Option ℚ) :=
  [(some 0, some 1), (some 1, some 3), (none, some 99), (some 2, some 5),
    (some 3, some 7), (some 4, some 9)]

/-- The cleaned sample of dfLinear. -/
def ptsLinear : List (ℚ × ℚ) := [(0, 1), (1, 3), (2, 5), (3, 7), (4, 9)]

theorem dropna_dfLinear : dropna dfLinear = ptsLinear := by decide

theorem linResult_ptsLinear : linResult ptsLinear = ⟨1, 2, 1, 0⟩ := by
  norm_num [linResult, linIntercept, linSlope, meanX, meanY, sxx, sxy,
    ssRes, ssTot, r2Score, mseOf, qsum, ptsLinear]

theorem poly2Result_ptsLinear :
    poly2Result ptsLinear = some ⟨[1, 2, 0], 1, 0⟩ := by
  norm_num [poly2Result, polyFit2, det3, xpowSum, xyPowSum, ssRes, ssTot,
    meanY, r2Score, mseOf, qsum, ptsLinear]

theorem poly3Result_ptsLinear :
    poly3Result ptsLinear = some ⟨[1, 2, 0, 0], 1, 0⟩ := by
  norm_num [poly3Result, polyFit3, det4, det3, xpowSum, xyPowSum, ssRes,
    ssTot, meanY, r2Score, mseOf, qsum, ptsLinear]

theorem run_regression_dfLinear :
    (run_regression_analysis true dfLinear).result =
      some ⟨⟨1, 2, 1, 0⟩, some ⟨[1, 2, 0], 1, 0⟩, some ⟨[1, 2, 0, 0], 1, 0⟩⟩ := by
  rw [run_regression_analysis]
  simp only [if_true, dropna_dfLinear]
  rw [if_neg (by norm_num [ptsLinear])]
  rw [linResult_ptsLinear, poly2Result_ptsLinear, poly3Result_ptsLinear]

/-- Claim C7: run_regression_analysis drops the rows with a missing
value, then fits degree 1, 2 and 3 least squares models with R2 equal
to 1 - SSres / SStot and RMSE the square root of the mean squared
residual; on the perfectly linear sample y = 2x + 1 the degree 1 fit
recovers intercept 1, coefficient 2, R2 = 1 and RMSE = 0 (all three
fits are exact there). -/
theorem claim_C7_linear_recovery :
    dropna dfLinear = [(0, 1), (1, 3), (2, 5), (3, 7), (4, 9)] ∧
    ((run_regression_analysis true dfLinear).result.map fun r =>
      (r.linear.intercept, r.linear.coef, r.linear.r2, r.linear.mse)) =
      some (1, 2, 1, 0) ∧
    ((run_regression_analysis true dfLinear).result.map fun r =>
      (r.poly2.map PolyResult.r2, r.poly2.map PolyResult.mse,
        r.poly3.map PolyResult.r2, r.poly3.map PolyResult.mse)) =
      some (some 1, some 0, some 1, some 0) ∧
    ((run_regression_analysis true dfLinear).result.map fun r =>
      Real.sqrt ((r.linear.mse : ℝ))) = some 0 := by
  refine ⟨dropna_dfLinear, ?_, ?_, ?_⟩
  · rw [run_regression_dfLinear, Option.map_some']
  · rw [run_regression_dfLinear, Option.map_some']
    rfl
  · rw [run_regression_dfLinear, Option.map_some', Option.some.injEq]
    show Real.sqrt ((0 : ℚ) : ℝ) = 0
    push_cast
    exact Real.sqrt_zero

/-- The series of the C8 counterexample: its date range overlaps the
2001 stress period only partially. -/
def dfPartialOverlap : List Row := [(20010601, 0), (20100101, 0)]

/-- Counterexample to C8 as stated: the dot-com stress period
(2001-03-01 to 2001-11-01) overlaps the chart date range
(2001-06-01 to 2010-01-01), yet the chart draws no band for it - only
the fully contained 2007 to 2009 period is shaded, unclipped. -/
theorem claim_C8_counterexample :
    specClaimedShading dfPartialOverlap = false ∧
    shadedBands dfPartialOverlap = [(20071201, 20090601)] := by
  exact ⟨rfl, rfl⟩

/-- Claim C8 amended: a stress period contributes a shaded band exactly
when it lies entirely inside the date range of the series, and the band
then spans the whole hard-coded period, not a clipped part of it. -/
theorem claim_C8_shading (df : List Row) (lo hi : Int) (p : Int × Int)
    (h1 : idxMinD (df.map Prod.fst) = some lo)
    (h2 : idxMaxD (df.map Prod.fst) = some hi) :
    p ∈ shadedBands df ↔ p ∈ recessions ∧ lo ≤ p.1 ∧ p.2 ≤ hi := by
  simp only [shadedBands, h1, h2, List.mem_filter, Bool.and_eq_true,
    decide_eq_true_eq, and_assoc]

/-- Witness for C8 on a series covering 2000 to 2025: the dot-com
period is shaded since it lies inside the range. -/
theorem claim_C8_witness :
    idxMinD ([((20000101 : Int), (0 : ℚ)), (20250101, 0)].map Prod.fst) =
      some 20000101 ∧
    idxMaxD ([((20000101 : Int), (0 : ℚ)), (20250101, 0)].map Prod.fst) =
      some 20250101 ∧
    (((20010301 : Int), (20011101 : Int)) ∈
        shadedBands [((20000101 : Int), (0 : ℚ)), (20250101, 0)] ↔
      ((20010301 : Int), (20011101 : Int)) ∈ recessions ∧
        (20000101 : Int) ≤ 20010301 ∧ (20011101 : Int) ≤ 20250101) :=
  ⟨rfl, rfl, claim_C8_shading _ _ _ _ rfl rfl⟩

end MortgageSpread
